import Mathlib

/-!
Shallow embedding of the pyasic extra-config core
(`pyasic/config/extra_config/espminer.py`) and of the canonical-config
composition described by the specification.

Wire payloads are modelled as association lists from string keys to
JSON values restricted to the value domain the source exercises for
these fields: `none` models JSON `null`, `some n` models an integer.
`pyGet` models Python's `dict.get(key)` (absent key and `null` value
both resolve to `None`).
-/

namespace Pyasic

/-- A vendor wire payload: a string-keyed mapping whose values are
JSON `null` (`none`) or integers (`some n`). -/
abbrev Payload := List (String × Option Int)

/-- Python `dict.get(k)`: the value stored at `k`, or `None` when the
key is absent. An explicit `null` value and an absent key both yield
`none`. -/
def pyGet (p : Payload) (k : String) : Option Int :=
  match p.lookup k with
  | some v => v
  | none => none

/-- The ESPMiner/BitAxe-specific extra configuration record: seven
optional integer fields, each defaulting to unset (`none`).
Mirrors class `ESPMinerExtraConfig` in
`pyasic/config/extra_config/espminer.py`. -/
structure ESPMinerExtraConfig where
  rotation : Option Int := none
  invertscreen : Option Int := none
  display_timeout : Option Int := none
  overheat_mode : Option Int := none
  overclock_enabled : Option Int := none
  stats_frequency : Option Int := none
  min_fan_speed : Option Int := none
deriving DecidableEq, Repr

namespace ESPMinerExtraConfig

/-- The canonical-name to wire-key table from `as_espminer`
(`field_mapping` in the source), in declaration order. -/
def field_mapping : List (String × String) :=
  [("rotation", "rotation"),
   ("invertscreen", "invertscreen"),
   ("display_timeout", "displayTimeout"),
   ("overheat_mode", "overheat_mode"),
   ("overclock_enabled", "overclockEnabled"),
   ("stats_frequency", "statsFrequency"),
   ("min_fan_speed", "minFanSpeed")]

/-- `getattr(self, field_name, None)`: dynamic field access by
canonical field name, defaulting to `None` for unknown names. -/
def getField (c : ESPMinerExtraConfig) : String → Option Int
  | "rotation" => c.rotation
  | "invertscreen" => c.invertscreen
  | "display_timeout" => c.display_timeout
  | "overheat_mode" => c.overheat_mode
  | "overclock_enabled" => c.overclock_enabled
  | "stats_frequency" => c.stats_frequency
  | "min_fan_speed" => c.min_fan_speed
  | _ => none

/-- `ESPMinerExtraConfig.as_espminer`: walk `field_mapping` in order,
emit `(api_name, value)` for every field whose value is set, skip
unset fields. The result dict never carries a `null` value, so its
value type is plain `Int`. -/
def as_espminer (c : ESPMinerExtraConfig) : List (String × Int) :=
  field_mapping.filterMap fun fa => (c.getField fa.1).map fun v => (fa.2, v)

/-- View the dict produced by `as_espminer` as a wire payload (its
integer values are non-null JSON values). -/
def toPayload (d : List (String × Int)) : Payload :=
  d.map fun kv => (kv.1, some kv.2)

/-- `ESPMinerExtraConfig.from_espminer`: construct the record with each
field read from its wire key by `web_system_info.get(...)`. -/
def from_espminer (p : Payload) : ESPMinerExtraConfig :=
  { rotation := pyGet p "rotation"
    invertscreen := pyGet p "invertscreen"
    display_timeout := pyGet p "displayTimeout"
    overheat_mode := pyGet p "overheat_mode"
    overclock_enabled := pyGet p "overclockEnabled"
    stats_frequency := pyGet p "statsFrequency"
    min_fan_speed := pyGet p "minFanSpeed" }

end ESPMinerExtraConfig

/-- Data error raised when a required base canonical field cannot be
parsed from a vendor payload. -/
structure MalformedPayloadError where
  message : String
deriving DecidableEq, Repr

/-- Normalized fan-mode value of the canonical config. -/
inductive FanModeConfig
  | auto
  | manual
deriving DecidableEq, Repr

/-- Modelled from the spec: the CanonicalConfig aggregate
(`MinerConfig` in `pyasic/config/__init__.py`, not under `src/`);
the fragment relevant here is the normalized fan policy and the
optional polymorphic extra-config slot. Pool endpoints are owned by a
separate out-of-scope subsystem and are not part of this fragment. -/
structure MinerConfig where
  fan_mode : FanModeConfig
  extra_config : Option ESPMinerExtraConfig
deriving DecidableEq, Repr

/-- Modelled from the spec: `MinerConfig.from_espminer`
(`pyasic/config/__init__.py`, not under `src/`). It first parses the
base canonical fields, requiring the vendor fan-mode indicator key
`autofanspeed` to be present, otherwise the fan policy parse fails and
propagates as a data error; then it builds the extra-config variant
from the same payload, and when every extra field is unset, the
resulting `extra_config` is `None` rather than an empty instance. -/
def MinerConfig.from_espminer (p : Payload) :
    Except MalformedPayloadError MinerConfig :=
  match p.lookup "autofanspeed" with
  | none => .error ⟨"autofanspeed missing from payload"⟩
  | some v =>
    let extra := ESPMinerExtraConfig.from_espminer p
    .ok
      { fan_mode := if v = some 0 then .manual else .auto
        extra_config := if extra = {} then none else some extra }

namespace ESPMinerExtraConfig

/-- A set field with value `v` yields the pair `(wire_key, v)` in the
output of `as_espminer`, and conversely every output pair comes from a
set field through `field_mapping`. -/
theorem mem_as_espminer {c : ESPMinerExtraConfig} {k : String} {v : Int} :
    (k, v) ∈ c.as_espminer ↔
      ∃ f, (f, k) ∈ field_mapping ∧ c.getField f = some v := by
  unfold as_espminer
  simp only [List.mem_filterMap, Option.map_eq_some']
  constructor
  · rintro ⟨⟨f, w⟩, hmem, a, hget, heq⟩
    cases heq
    exact ⟨f, hmem, hget⟩
  · rintro ⟨f, hmem, hget⟩
    exact ⟨(f, k), hmem, v, hget, rfl⟩

/-- `pyGet` returns a non-null value exactly when the key is stored
with that non-null value. -/
theorem pyGet_eq_some {p : Payload} {k : String} {v : Int} :
    pyGet p k = some v ↔ p.lookup k = some (some v) := by
  unfold pyGet
  cases h : p.lookup k with
  | none => simp
  | some w => simp

/-- `from_espminer` reads each canonical field from its wire key in
`field_mapping` via `pyGet`. -/
theorem getField_from_espminer {p : Payload} {f w : String}
    (h : (f, w) ∈ field_mapping) :
    (from_espminer p).getField f = pyGet p w := by
  simp only [field_mapping, List.mem_cons, List.not_mem_nil, or_false,
    Prod.mk.injEq] at h
  rcases h with ⟨rfl, rfl⟩ | ⟨rfl, rfl⟩ | ⟨rfl, rfl⟩ | ⟨rfl, rfl⟩ |
    ⟨rfl, rfl⟩ | ⟨rfl, rfl⟩ | ⟨rfl, rfl⟩ <;> rfl

/-- C1: for every extra-config instance `x`, fully or partially
populated, deserializing the serialization reproduces it exactly:
`from_espminer (as_espminer x) = x`. -/
theorem from_espminer_as_espminer_roundtrip (x : ESPMinerExtraConfig) :
    from_espminer (toPayload x.as_espminer) = x := by
  obtain ⟨r, i, d, o, oc, s, m⟩ := x
  cases r <;> cases i <;> cases d <;> cases o <;> cases oc <;> cases s <;>
    cases m <;> rfl

/-- C2: the keys of `as_espminer c` are exactly the wire keys of the
set fields: a wire key appears in the output iff its canonical field
is set, and every output key comes from `field_mapping`. -/
theorem as_espminer_keys_exact (c : ESPMinerExtraConfig) (k : String) :
    k ∈ c.as_espminer.map Prod.fst ↔
      ∃ f, (f, k) ∈ field_mapping ∧ (c.getField f).isSome := by
  constructor
  · intro hk
    obtain ⟨⟨k', v⟩, hmem, hfst⟩ := List.mem_map.mp hk
    cases hfst
    obtain ⟨f, hf, hget⟩ := mem_as_espminer.mp hmem
    exact ⟨f, hf, by simp [hget]⟩
  · rintro ⟨f, hf, hsome⟩
    obtain ⟨v, hv⟩ := Option.isSome_iff_exists.mp hsome
    exact List.mem_map.mpr ⟨(k, v), mem_as_espminer.mpr ⟨f, hf, hv⟩, rfl⟩

/-- C3: `as_espminer (from_espminer p)` is a sub-mapping of `p`
restricted to recognized non-null keys: every output pair is stored
identically (non-null) in `p` at a recognized wire key. -/
theorem as_espminer_from_espminer_subset (p : Payload) (k : String) (v : Int)
    (h : (k, v) ∈ (from_espminer p).as_espminer) :
    p.lookup k = some (some v) ∧ k ∈ field_mapping.map Prod.snd := by
  obtain ⟨f, hf, hget⟩ := mem_as_espminer.mp h
  rw [getField_from_espminer hf] at hget
  exact ⟨pyGet_eq_some.mp hget, List.mem_map.mpr ⟨(f, k), hf, rfl⟩⟩

/-- C3 witness. -/
theorem as_espminer_from_espminer_subset_witness :
    List.lookup "rotation" [("rotation", some (90 : Int))] =
        some (some 90) ∧
      "rotation" ∈ field_mapping.map Prod.snd :=
  as_espminer_from_espminer_subset [("rotation", some 90)] "rotation" 90
    (by decide)

/-- Consing an entry under a different key does not change `pyGet`. -/
theorem pyGet_cons_ne {k w : String} (h : w ≠ k) (v : Option Int)
    (p : Payload) : pyGet ((k, v) :: p) w = pyGet p w := by
  unfold pyGet
  have hb : (w == k) = false := beq_eq_false_iff_ne.mpr h
  simp [List.lookup, hb]

/-- Prepending an entry whose key is not a recognized wire key leaves
`from_espminer` unchanged. -/
theorem from_espminer_cons_unrecognized {k : String} (v : Option Int)
    (p : Payload) (hk : k ∉ field_mapping.map Prod.snd) :
    from_espminer ((k, v) :: p) = from_espminer p := by
  simp only [field_mapping, List.map_cons, List.map_nil, List.mem_cons,
    List.not_mem_nil, or_false, not_or] at hk
  obtain ⟨h1, h2, h3, h4, h5, h6, h7⟩ := hk
  unfold from_espminer
  rw [pyGet_cons_ne (fun he => h1 he.symm),
    pyGet_cons_ne (fun he => h2 he.symm),
    pyGet_cons_ne (fun he => h3 he.symm),
    pyGet_cons_ne (fun he => h4 he.symm),
    pyGet_cons_ne (fun he => h5 he.symm),
    pyGet_cons_ne (fun he => h6 he.symm),
    pyGet_cons_ne (fun he => h7 he.symm)]

/-- C4: `from_espminer` sets a canonical field to the value stored at
its wire key when the key is present, leaves it unset (`none`) when
the key is absent, and the construction ignores unrecognized keys. -/
theorem from_espminer_field_extraction (p : Payload) (f w : String)
    (hfw : (f, w) ∈ field_mapping) :
    (∀ v, p.lookup w = some v → (from_espminer p).getField f = v) ∧
      (p.lookup w = none → (from_espminer p).getField f = none) ∧
      (∀ (k : String) (v : Option Int), k ∉ field_mapping.map Prod.snd →
        from_espminer ((k, v) :: p) = from_espminer p) := by
  refine ⟨?_, ?_, fun k v hk => from_espminer_cons_unrecognized v p hk⟩
  · intro v hv
    rw [getField_from_espminer hfw]
    unfold pyGet
    rw [hv]
  · intro hv
    rw [getField_from_espminer hfw]
    unfold pyGet
    rw [hv]

/-- C4 witness. -/
theorem from_espminer_field_extraction_witness :
    (from_espminer [("displayTimeout", some 5)]).getField
      "display_timeout" = some 5 :=
  (from_espminer_field_extraction [("displayTimeout", some 5)]
    "display_timeout" "displayTimeout" (by decide)).1 (some 5) rfl

/-- C5: the mapping table is exactly the seven stated pairs, both of
its projections are duplicate-free (bijectivity), and `from_espminer`
reads fields through the very same table. -/
theorem field_mapping_exact_and_bijective :
    field_mapping =
      [("rotation", "rotation"),
       ("invertscreen", "invertscreen"),
       ("display_timeout", "displayTimeout"),
       ("overheat_mode", "overheat_mode"),
       ("overclock_enabled", "overclockEnabled"),
       ("stats_frequency", "statsFrequency"),
       ("min_fan_speed", "minFanSpeed")] ∧
      (field_mapping.map Prod.fst).Nodup ∧
      (field_mapping.map Prod.snd).Nodup ∧
      ∀ (p : Payload) (f w : String), (f, w) ∈ field_mapping →
        (from_espminer p).getField f = pyGet p w :=
  ⟨rfl, by decide, by decide, fun _ _ _ h => getField_from_espminer h⟩

/-- C5 witness. -/
theorem field_mapping_exact_and_bijective_witness :
    (from_espminer [("minFanSpeed", some 30)]).getField
      "min_fan_speed" = some 30 :=
  field_mapping_exact_and_bijective.2.2.2 [("minFanSpeed", some 30)]
    "min_fan_speed" "minFanSpeed" (by decide)

/-- The keys emitted by the `field_mapping` walk form a sublist of the
wire keys in table declaration order. -/
theorem filterMap_keys_sublist (c : ESPMinerExtraConfig) :
    ∀ l : List (String × String),
      List.Sublist
        ((l.filterMap fun fa =>
          (c.getField fa.1).map fun v => (fa.2, v)).map Prod.fst)
        (l.map Prod.snd)
  | [] => by simp
  | fa :: t => by
    cases h : c.getField fa.1 with
    | none =>
      simpa [List.filterMap_cons, h] using
        List.Sublist.cons fa.2 (filterMap_keys_sublist c t)
    | some v =>
      simpa [List.filterMap_cons, h] using
        List.Sublist.cons₂ fa.2 (filterMap_keys_sublist c t)

/-- C8: `as_espminer` is a pure function of the record state (equal
states give equal results), and the keys of its result always appear
in the fixed declaration order of the table: they form a sublist of
`field_mapping`'s wire keys. -/
theorem as_espminer_deterministic_stable (c₁ c₂ : ESPMinerExtraConfig)
    (h : c₁ = c₂) :
    c₁.as_espminer = c₂.as_espminer ∧
      List.Sublist (c₁.as_espminer.map Prod.fst)
        (field_mapping.map Prod.snd) := by
  refine ⟨by rw [h], ?_⟩
  unfold as_espminer
  exact filterMap_keys_sublist c₁ field_mapping

/-- C8 witness. -/
theorem as_espminer_deterministic_stable_witness :
    ESPMinerExtraConfig.as_espminer { rotation := some 90 } =
        ESPMinerExtraConfig.as_espminer { rotation := some 90 } ∧
      List.Sublist
        ((ESPMinerExtraConfig.as_espminer
          { rotation := some 90 }).map Prod.fst)
        (field_mapping.map Prod.snd) :=
  as_espminer_deterministic_stable { rotation := some 90 }
    { rotation := some 90 } rfl

/-- Remove every entry stored under key `k` from a payload. -/
def eraseKey (p : Payload) (k : String) : Payload :=
  p.filter fun kv => kv.1 != k

/-- After erasing key `k`, looking `k` up finds nothing. -/
theorem lookup_eraseKey_self (p : Payload) (k : String) :
    (eraseKey p k).lookup k = none := by
  induction p with
  | nil => rfl
  | cons kv t ih =>
    by_cases h : kv.1 = k
    · simpa [eraseKey, List.filter_cons, h] using ih
    · have hb : (kv.1 != k) = true := bne_iff_ne.mpr h
      have hb' : (k == kv.1) = false :=
        beq_eq_false_iff_ne.mpr fun he => h he.symm
      simpa [eraseKey, List.filter_cons, hb, List.lookup, hb'] using ih

/-- Erasing key `k` does not affect lookups of other keys. -/
theorem lookup_eraseKey_ne (p : Payload) (k w : String) (h : w ≠ k) :
    (eraseKey p k).lookup w = p.lookup w := by
  induction p with
  | nil => rfl
  | cons kv t ih =>
    obtain ⟨a, b⟩ := kv
    by_cases hk : a = k
    · subst hk
      have hw : (w == a) = false := beq_eq_false_iff_ne.mpr h
      simpa [eraseKey, List.filter_cons, List.lookup, hw] using ih
    · have hb : (a != k) = true := bne_iff_ne.mpr hk
      cases hwk : w == a with
      | true => simp [eraseKey, List.filter_cons, hb, List.lookup, hwk]
      | false =>
        simpa [eraseKey, List.filter_cons, hb, List.lookup, hwk] using ih

/-- When `k` is stored with a `null` value, erasing it changes no
`pyGet` result. -/
theorem pyGet_eraseKey {p : Payload} {k : String}
    (h : p.lookup k = some none) (w : String) :
    pyGet (eraseKey p k) w = pyGet p w := by
  by_cases hw : w = k
  · subst hw
    unfold pyGet
    rw [lookup_eraseKey_self, h]
  · unfold pyGet
    rw [lookup_eraseKey_ne p k w hw]

/-- C10: an explicit `null` at a recognized wire key is the same as the
key being absent — `from_espminer p` equals `from_espminer` of `p` with
the key removed — while a field set to `0` counts as set: `as_espminer`
emits it. Only `None`, never zero, denotes unset. -/
theorem null_value_same_as_absent (p : Payload) (k : String)
    (_hk : k ∈ field_mapping.map Prod.snd) (h : p.lookup k = some none) :
    from_espminer p = from_espminer (eraseKey p k) ∧
      ∀ (c : ESPMinerExtraConfig) (f w : String), (f, w) ∈ field_mapping →
        c.getField f = some 0 → (w, (0 : Int)) ∈ c.as_espminer := by
  refine ⟨?_, fun c f w hfw hget => mem_as_espminer.mpr ⟨f, hfw, hget⟩⟩
  unfold from_espminer
  simp only [pyGet_eraseKey h]

/-- C10 witness. -/
theorem null_value_same_as_absent_witness :
    from_espminer [("rotation", (none : Option Int)),
        ("invertscreen", some 1)] =
      from_espminer (eraseKey
        [("rotation", (none : Option Int)), ("invertscreen", some 1)]
        "rotation") :=
  (null_value_same_as_absent
    [("rotation", (none : Option Int)), ("invertscreen", some 1)]
    "rotation" (by decide) (by decide)).1

end ESPMinerExtraConfig

namespace MinerConfig

open ESPMinerExtraConfig

/-- C6: whenever no recognized extra-config wire key carries a
non-null value, a successful `MinerConfig.from_espminer` yields a
canonical config whose `extra_config` is `None`, not an
empty-but-present instance. -/
theorem from_espminer_all_unset_extra_none (p : Payload)
    (h : ∀ w ∈ field_mapping.map Prod.snd, pyGet p w = none)
    (cfg : MinerConfig) (hok : MinerConfig.from_espminer p = .ok cfg) :
    cfg.extra_config = none := by
  have hextra : ESPMinerExtraConfig.from_espminer p = {} := by
    have h1 := h "rotation" (by decide)
    have h2 := h "invertscreen" (by decide)
    have h3 := h "displayTimeout" (by decide)
    have h4 := h "overheat_mode" (by decide)
    have h5 := h "overclockEnabled" (by decide)
    have h6 := h "statsFrequency" (by decide)
    have h7 := h "minFanSpeed" (by decide)
    unfold ESPMinerExtraConfig.from_espminer
    rw [h1, h2, h3, h4, h5, h6, h7]
  cases hl : p.lookup "autofanspeed" with
  | none => simp [MinerConfig.from_espminer, hl] at hok
  | some v =>
    simp only [MinerConfig.from_espminer, hl] at hok
    replace hok := Except.ok.inj hok
    subst hok
    simp [hextra]

/-- C6 witness. -/
theorem from_espminer_all_unset_extra_none_witness :
    MinerConfig.extra_config
        { fan_mode := FanModeConfig.auto, extra_config := none } =
      none :=
  from_espminer_all_unset_extra_none [("autofanspeed", some 1)]
    (by decide)
    { fan_mode := FanModeConfig.auto, extra_config := none }
    (by rfl)

/-- C7: whenever at least one recognized extra-config wire key carries
a non-null value, a successful `MinerConfig.from_espminer` yields a
canonical config whose `extra_config` is present, with each canonical
field holding exactly the payload value at its wire key (absent keys
stay `None`). -/
theorem from_espminer_partial_extra_some (p : Payload)
    (cfg : MinerConfig) (hok : MinerConfig.from_espminer p = .ok cfg)
    (w₀ : String) (hw : w₀ ∈ field_mapping.map Prod.snd)
    (hnn : pyGet p w₀ ≠ none) :
    ∃ e, cfg.extra_config = some e ∧
      ∀ f w, (f, w) ∈ field_mapping → e.getField f = pyGet p w := by
  have hne : ESPMinerExtraConfig.from_espminer p ≠ {} := by
    intro hcontra
    simp only [field_mapping, List.map_cons, List.map_nil,
      List.mem_cons, List.not_mem_nil, or_false] at hw
    rcases hw with rfl | rfl | rfl | rfl | rfl | rfl | rfl
    · exact hnn (congrArg ESPMinerExtraConfig.rotation hcontra)
    · exact hnn (congrArg ESPMinerExtraConfig.invertscreen hcontra)
    · exact hnn (congrArg ESPMinerExtraConfig.display_timeout hcontra)
    · exact hnn (congrArg ESPMinerExtraConfig.overheat_mode hcontra)
    · exact hnn (congrArg ESPMinerExtraConfig.overclock_enabled hcontra)
    · exact hnn (congrArg ESPMinerExtraConfig.stats_frequency hcontra)
    · exact hnn (congrArg ESPMinerExtraConfig.min_fan_speed hcontra)
  cases hl : p.lookup "autofanspeed" with
  | none => simp [MinerConfig.from_espminer, hl] at hok
  | some v =>
    simp only [MinerConfig.from_espminer, hl] at hok
    replace hok := Except.ok.inj hok
    subst hok
    refine ⟨ESPMinerExtraConfig.from_espminer p, ?_,
      fun f w hfw => getField_from_espminer hfw⟩
    simp [hne]

/-- C7 witness. -/
theorem from_espminer_partial_extra_some_witness :
    ∃ e, MinerConfig.extra_config
          { fan_mode := FanModeConfig.auto,
            extra_config :=
              some { rotation := some 180, invertscreen := some 0 } } =
        some e ∧
      ∀ f w, (f, w) ∈ field_mapping →
        ESPMinerExtraConfig.getField e f =
          pyGet [("autofanspeed", some 1), ("rotation", some 180),
            ("invertscreen", some 0)] w :=
  from_espminer_partial_extra_some
    [("autofanspeed", some 1), ("rotation", some 180),
      ("invertscreen", some 0)]
    { fan_mode := FanModeConfig.auto,
      extra_config :=
        some { rotation := some 180, invertscreen := some 0 } }
    (by rfl) "rotation" (by decide) (by decide)

/-- C9: base-field parsing is all-or-nothing and requires the vendor
fan-mode indicator: `MinerConfig.from_espminer` fails with a
`MalformedPayloadError` exactly when the `autofanspeed` key is absent
from the payload, and otherwise returns a complete canonical config. -/
theorem from_espminer_requires_autofanspeed (p : Payload) :
    (∃ e : MalformedPayloadError,
        MinerConfig.from_espminer p = .error e) ↔
      p.lookup "autofanspeed" = none := by
  unfold MinerConfig.from_espminer
  cases hl : p.lookup "autofanspeed" with
  | none => simp
  | some v => simp

end MinerConfig

end Pyasic
